import Mathlib

/-!
Verification of the typed object model and indirect-reference layer
(src/src/object.rs of the pdf crate).  Pure Rust functions are embedded
as Lean functions; `write!` effects are embedded as the character list
they would emit; a Rust panic is embedded as the `none` case of an
`Option` result; fallible conversions return `Except ErrorKind`.
-/

set_option maxRecDepth 4000

/-- Object number, `pub type ObjNr = u64` in the source.  Modelled as
Nat; every claim quantifies only over the decimal rendering, which is
identical on the shared range. -/
abbrev ObjNr := Nat

/-- Generation number, `pub type GenNr = u16` in the source. -/
abbrev GenNr := Nat

/-- `PlainRef { id: ObjNr, gen: GenNr }` from the source. -/
structure PlainRef where
  id : ObjNr
  gen : GenNr
deriving DecidableEq

/-- Modelled from the spec: the error taxonomy of the external `err`
module (not under src).  The source constructs `ErrorKind::FollowReference`
(the ReferenceResolutionForbidden kind of the spec); the collaborator
accessors fail with a type-mismatch flavored error; resolution failure
and the encoding violation are the two remaining kinds of section 7. -/
inductive ErrorKind where
  | FollowReference
  | TypeMismatch
  | ResolutionFailed
  | EncodingViolation
deriving DecidableEq

/-- Mapping keys are plain identifier strings; an alias so the key type
stays visible inside the `Primitive` namespace, where the bare name
`String` denotes the text-string constructor. -/
abbrev DictKey := String

/-- Modelled from the spec: the external generic tagged-union value
(`Primitive`, defined in the `primitive` module, not under src), with the
variant set the source pattern-matches over.  The floating-point payload
and the raw stream payload are external types whose only observation in
this file is the character list their own serializers emit, so they are
represented by that character list. -/
inductive Primitive where
  | Null : Primitive
  | Integer : Int → Primitive
  | Number : List Char → Primitive
  | Boolean : Bool → Primitive
  | String : List Char → Primitive
  | Stream : List Char → Primitive
  | Dictionary : List (DictKey × Primitive) → Primitive
  | Array : List Primitive → Primitive
  | Reference : PlainRef → Primitive
  | Name : List Char → Primitive

/-- Whether a generic value is the array variant. -/
def Primitive.isArray : Primitive → Bool
  | .Array _ => true
  | _ => false

/-- The resolver capability: `trait Resolve` has the single method
`resolve(&self, r: PlainRef) -> Result<Primitive>`, and every function of
that shape is a resolver (the blanket impl for `F: Fn(PlainRef) ->
Result<Primitive>`), so the capability is embedded as the function type
itself. -/
def Resolve := PlainRef → Except ErrorKind Primitive

/-- `NoResolve::resolve`: always `Err(ErrorKind::FollowReference.into())`. -/
def NoResolve.resolve : Resolve := fun _ => Except.error ErrorKind.FollowReference

/-- Modelled from the spec: collaborator accessor `as_reference` of the
external `primitive` module; succeeds on the reference variant, fails
with a type-mismatch flavored error otherwise. -/
def Primitive.as_reference : Primitive → Except ErrorKind PlainRef
  | .Reference r => Except.ok r
  | _ => Except.error ErrorKind.TypeMismatch

/-- Modelled from the spec: collaborator accessor `as_integer`; succeeds
on the integer variant, else type mismatch. -/
def Primitive.as_integer : Primitive → Except ErrorKind Int
  | .Integer i => Except.ok i
  | _ => Except.error ErrorKind.TypeMismatch

/-- Modelled from the spec: collaborator accessor `as_bool`; succeeds on
the boolean variant, else type mismatch. -/
def Primitive.as_bool : Primitive → Except ErrorKind Bool
  | .Boolean b => Except.ok b
  | _ => Except.error ErrorKind.TypeMismatch

/-- Modelled from the spec: collaborator accessor `as_name`; succeeds on
the name/identifier variant, used as the decoded text, else type
mismatch. -/
def Primitive.as_name : Primitive → Except ErrorKind (List Char)
  | .Name n => Except.ok n
  | _ => Except.error ErrorKind.TypeMismatch

/-- Modelled from the spec: collaborator decoder `as_array`; the resolver
argument is accepted as in the source call `p.as_array(r)`; succeeds on
the array variant, else type mismatch. -/
def Primitive.as_array : Primitive → Resolve → Except ErrorKind (List Primitive)
  | .Array a, _ => Except.ok a
  | _, _ => Except.error ErrorKind.TypeMismatch

/-- Modelled from the spec: collaborator decoder `as_dictionary`,
resolver passed through as in the source call `p.as_dictionary(r)`;
succeeds on the mapping variant, else type mismatch. -/
def Primitive.as_dictionary : Primitive → Resolve → Except ErrorKind (List (DictKey × Primitive))
  | .Dictionary d, _ => Except.ok d
  | _, _ => Except.error ErrorKind.TypeMismatch

/-- `Ref<T>`: a PlainRef plus a phantom type marker. -/
structure Ref (T : Type) where
  inner : PlainRef

/-- `Ref::new`. -/
def Ref.new (T : Type) (inner : PlainRef) : Ref T := ⟨inner⟩

/-- `Ref::from_id`: generation defaults to 0. -/
def Ref.from_id (T : Type) (id : ObjNr) : Ref T := ⟨⟨id, 0⟩⟩

/-- `Ref::get_inner`. -/
def Ref.get_inner (r : Ref T) : PlainRef := r.inner

/-- Decimal digit character, `0..9` mapped to `'0'..'9'`. -/
def digitChar (n : Nat) : Char := Char.ofNat (48 + n)

/-- The decimal rendering of a natural number, embedding the standard
library Display formatting used by `write!("{}", n)` for the unsigned
integer types. -/
def natToDecimal (n : Nat) : List Char :=
  if _h : n < 10 then [digitChar n]
  else natToDecimal (n / 10) ++ [digitChar (n % 10)]
decreasing_by exact Nat.div_lt_self (by omega) (by omega)

/-- The decimal rendering of a signed integer (Display of `i32`): a minus
sign followed by the magnitude for negative values. -/
def intToDecimal (i : Int) : List Char :=
  if i < 0 then '-' :: natToDecimal (-i).toNat else natToDecimal i.toNat

/-- The base-10 value of a character list under the digit reading used to
state that a rendering is decimal. -/
def decimalValue (cs : List Char) : Nat :=
  cs.foldl (fun a c => 10 * a + (c.toNat - 48)) 0

/-- `PlainRef::serialize`: `write!(out, "{} {} R", self.id, self.gen)`. -/
def PlainRef.serialize (r : PlainRef) : List Char :=
  natToDecimal r.id ++ ' ' :: (natToDecimal r.gen ++ [' ', 'R'])

/-- `Ref::<T>::serialize`: `self.inner.serialize(out)`. -/
def Ref.serialize (r : Ref T) : List Char := r.inner.serialize

/-- `PlainRef::from_primitive`: `p.as_reference()`, resolver ignored. -/
def PlainRef.from_primitive (p : Primitive) (_ : Resolve) : Except ErrorKind PlainRef :=
  p.as_reference

/-- `Ref::<T>::from_primitive`: `Ok(Ref::new(p.as_reference()?))`,
resolver ignored. -/
def Ref.from_primitive (T : Type) (p : Primitive) (_ : Resolve) : Except ErrorKind (Ref T) :=
  (p.as_reference).map (Ref.new T)

/-- `<i32 as Object>::from_primitive`: `p.as_integer()`. -/
def i32FromPrimitive (p : Primitive) (_ : Resolve) : Except ErrorKind Int :=
  p.as_integer

/-- The Rust cast `as usize` applied to an i32 value on a 64-bit target:
sign extension, that is reduction modulo 2 ^ 64. -/
def i32AsUsize (n : Int) : Nat := (n % (2 ^ 64 : Int)).toNat

/-- `<usize as Object>::from_primitive`:
`Ok(i32::from_primitive(p, r)? as usize)`. -/
def usizeFromPrimitive (p : Primitive) (r : Resolve) : Except ErrorKind Nat :=
  (i32FromPrimitive p r).map i32AsUsize

/-- `<bool as Object>::from_primitive`: `p.as_bool()`. -/
def boolFromPrimitive (p : Primitive) (_ : Resolve) : Except ErrorKind Bool :=
  p.as_bool

/-- `<String as Object>::from_primitive`: `Ok(p.as_name()?)`. -/
def stringFromPrimitive (p : Primitive) (_ : Resolve) : Except ErrorKind (List Char) :=
  p.as_name

/-- `<Dictionary as Object>::from_primitive`: `p.as_dictionary(r)`. -/
def dictionaryFromPrimitive (p : Primitive) (r : Resolve) :
    Except ErrorKind (List (DictKey × Primitive)) :=
  p.as_dictionary r

/-- `<Primitive as Object>::from_primitive`: `Ok(p)`. -/
def primitiveFromPrimitive (p : Primitive) (_ : Resolve) : Except ErrorKind Primitive :=
  Except.ok p

/-- The element-wise conversion of an array body:
`.into_iter().map(|p| T::from_primitive(p, r)).collect::<Result<Vec<T>>>()`.
Collecting into a Result is fail-fast: the first error is returned and no
later element is converted. -/
def listFromPrimitive (fromPrim : Primitive → Resolve → Except ErrorKind α) :
    List Primitive → Resolve → Except ErrorKind (List α)
  | [], _ => Except.ok []
  | p :: ps, r => do
    let v ← fromPrim p r
    let vs ← listFromPrimitive fromPrim ps r
    pure (v :: vs)

/-- `<Vec<T> as Object>::from_primitive`, generic over the element
conversion `T::from_primitive`: on the array variant, decode the body
with `as_array` and convert element-wise; on every other variant, convert
the value directly as a single `T` and wrap it in a one-element list. -/
def vecFromPrimitive (fromPrim : Primitive → Resolve → Except ErrorKind α)
    (p : Primitive) (r : Resolve) : Except ErrorKind (List α) :=
  match p with
  | .Array a => do
    let elems ← Primitive.as_array (.Array a) r
    listFromPrimitive fromPrim elems r
  | _ => do
    let v ← fromPrim p r
    pure [v]

/-- `<String as Object>::serialize`: for each character, a backslash or a
parenthesis is preceded by an escaping backslash, a character above `~`
is a panic (embedded as `none`), every character is then written
unchanged. -/
def stringSerialize : List Char → Option (List Char)
  | [] => some []
  | c :: rest =>
    if c = '\\' ∨ c = '(' ∨ c = ')' then
      (stringSerialize rest).map (fun t => '\\' :: c :: t)
    else if '~' < c then none
    else (stringSerialize rest).map (fun t => c :: t)

/-- `<bool as Object>::serialize`: Display of bool, `true` or `false`. -/
def boolSerialize (b : Bool) : List Char :=
  if b then ("true".data) else ("false".data)

/-- Space-separated join of already serialized elements, used by the
modelled `write_list`. -/
def joinSpaces : List (List Char) → List Char
  | [] => []
  | [x] => x
  | x :: xs => x ++ ' ' :: joinSpaces xs

mutual

/-- `<Primitive as Object>::serialize`: dispatches to the matching
variant serializer.  The integer, number and boolean variants write
their Display form; the string and name variants use the escaping string
serializer (so they can panic, hence `Option`); the stream and number
payloads are external and carry their own rendering. -/
def Primitive.serialize : Primitive → Option (List Char)
  | .Null => some ("null".data)
  | .Integer i => some (intToDecimal i)
  | .Number x => some x
  | .Boolean b => some (boolSerialize b)
  | .String s => stringSerialize s
  | .Stream s => some s
  | .Dictionary d => dictionarySerialize d
  | .Array a => arraySerialize a
  | .Reference r => some r.serialize
  | .Name n => stringSerialize n

/-- The loop body of `<Dictionary as Object>::serialize`: for each
`(key, val)` pair, `write!(out, "/{} ", key)` then `val.serialize(out)`;
the single space sits between the raw key and the value. -/
def serializeDictPairs : List (DictKey × Primitive) → Option (List Char)
  | [] => some []
  | (k, v) :: rest => do
    let sv ← Primitive.serialize v
    let srest ← serializeDictPairs rest
    pure ('/' :: k.data ++ ' ' :: (sv ++ srest))

/-- `<Dictionary as Object>::serialize`: `<<`, the pair loop, `>>`. -/
def dictionarySerialize (d : List (DictKey × Primitive)) : Option (List Char) :=
  (serializeDictPairs d).map (fun m => '<' :: '<' :: (m ++ ['>', '>']))

/-- Element-wise serialization of an array body. -/
def serializeArrayElems : List Primitive → Option (List (List Char))
  | [] => some []
  | p :: ps => do
    let s ← Primitive.serialize p
    let ss ← serializeArrayElems ps
    pure (s :: ss)

/-- Modelled from the spec: `<Vec<T> as Object>::serialize` delegates to
`write_list` of the external `types` module (not under src); the spec
fixes a bracket-delimited, space-separated list of the recursively
serialized elements. -/
def arraySerialize (a : List Primitive) : Option (List Char) :=
  (serializeArrayElems a).map (fun es => '[' :: (joinSpaces es ++ [']']))

end

/-- Whether a conversion result is a success. -/
def resultIsOk : Except ErrorKind α → Bool
  | Except.ok _ => true
  | Except.error _ => false

@[simp]
theorem exceptBind_ok (v : α) (f : α → Except ErrorKind β) :
    (Except.ok v >>= f) = f v := rfl

@[simp]
theorem exceptBind_error (e : ErrorKind) (f : α → Except ErrorKind β) :
    ((Except.error e : Except ErrorKind α) >>= f) = Except.error e := rfl

@[simp]
theorem exceptMap_ok (v : α) (f : α → β) :
    (Except.ok v : Except ErrorKind α).map f = Except.ok (f v) := rfl

@[simp]
theorem exceptMap_error (e : ErrorKind) (f : α → β) :
    (Except.error e : Except ErrorKind α).map f = Except.error e := rfl

/-- Claim C6: the forbidding resolver never returns a value: for every
indirect reference, `NoResolve.resolve` fails, and the error is the
FollowReference kind (the ReferenceResolutionForbidden kind of the
spec taxonomy). -/
theorem noResolve_always_forbidden (r : PlainRef) :
    NoResolve.resolve r = Except.error ErrorKind.FollowReference := rfl

/-- Claim C8: the resolver argument is unused when constructing
references: for every generic value and any two resolvers, both
`PlainRef.from_primitive` and `Ref.from_primitive` return the same
result under either resolver, for every marker type. -/
theorem ref_from_primitive_resolver_independent (T : Type) (p : Primitive)
    (r1 r2 : Resolve) :
    PlainRef.from_primitive p r1 = PlainRef.from_primitive p r2 ∧
    Ref.from_primitive T p r1 = Ref.from_primitive T p r2 :=
  ⟨rfl, rfl⟩

/-- Claim C9: converting a generic integer value holding a negative
signed 32-bit integer n to the unsigned size type succeeds and returns
the twos-complement cast 2 ^ 64 + n, because the conversion goes through
the signed path followed by a bare cast. -/
theorem usize_from_negative_wraps (n : Int) (r : Resolve)
    (h1 : -(2 ^ 31) ≤ n) (h2 : n < 0) :
    usizeFromPrimitive (Primitive.Integer n) r = Except.ok ((2 ^ 64 + n).toNat) := by
  simp [usizeFromPrimitive, i32FromPrimitive, Primitive.as_integer, i32AsUsize]
  omega

/-- Witness for C9 at n = -1: the result is 2 ^ 64 - 1. -/
theorem usize_from_negative_wraps_witness :
    -(2 ^ 31) ≤ (-1 : Int) ∧ (-1 : Int) < 0 ∧
    usizeFromPrimitive (Primitive.Integer (-1)) NoResolve.resolve =
      Except.ok ((2 ^ 64 + (-1 : Int)).toNat) :=
  ⟨by norm_num, by norm_num,
    usize_from_negative_wraps (-1) NoResolve.resolve (by norm_num) (by norm_num)⟩

/-- Claim C1: singleton coercion: for every element conversion, every
resolver and every generic value that is not the array variant,
converting to a sequence succeeds iff converting directly to the element
type succeeds, and on success yields the one-element list holding that
converted value. -/
theorem vec_singleton_coercion (α : Type)
    (fromPrim : Primitive → Resolve → Except ErrorKind α)
    (p : Primitive) (r : Resolve) (h : p.isArray = false) :
    vecFromPrimitive fromPrim p r = (fromPrim p r).map (fun v => [v]) := by
  cases p <;> simp [Primitive.isArray] at h <;>
    · show (fromPrim _ r >>= fun v => pure [v]) = _
      cases fromPrim _ r <;> rfl

/-- Witness for C1 at the integer value 7 with the i32 element
conversion and the forbidding resolver. -/
theorem vec_singleton_coercion_witness :
    (Primitive.Integer 7).isArray = false ∧
    vecFromPrimitive i32FromPrimitive (Primitive.Integer 7) NoResolve.resolve =
      (i32FromPrimitive (Primitive.Integer 7) NoResolve.resolve).map (fun v => [v]) :=
  ⟨rfl, vec_singleton_coercion Int i32FromPrimitive (Primitive.Integer 7)
    NoResolve.resolve rfl⟩

/-- On the array variant, `Vec::from_primitive` is exactly the
element-wise conversion of the body: `as_array` succeeds and the
singleton path is not taken. -/
theorem vecFromPrimitive_array (α : Type)
    (fromPrim : Primitive → Resolve → Except ErrorKind α)
    (a : List Primitive) (r : Resolve) :
    vecFromPrimitive fromPrim (Primitive.Array a) r = listFromPrimitive fromPrim a r := by
  show (Primitive.as_array (Primitive.Array a) r >>= fun elems =>
    listFromPrimitive fromPrim elems r) = _
  rfl

/-- Element-wise conversion is fail-fast: a prefix of successes followed
by a failing element yields exactly that failure, whatever comes after. -/
theorem listFromPrimitive_fail_fast (α : Type)
    (fromPrim : Primitive → Resolve → Except ErrorKind α) (r : Resolve)
    (pre : List Primitive) (x : Primitive) (suf : List Primitive) (e : ErrorKind)
    (hpre : ∀ q ∈ pre, resultIsOk (fromPrim q r) = true)
    (hx : fromPrim x r = Except.error e) :
    listFromPrimitive fromPrim (pre ++ x :: suf) r = Except.error e := by
  induction pre with
  | nil => simp [listFromPrimitive, hx]
  | cons q qs ih =>
    have hq : resultIsOk (fromPrim q r) = true := hpre q (by simp)
    have hqs : ∀ q2 ∈ qs, resultIsOk (fromPrim q2 r) = true :=
      fun q2 h2 => hpre q2 (by simp [h2])
    cases hfq : fromPrim q r with
    | error e2 => simp [resultIsOk, hfq] at hq
    | ok v =>
      show (fromPrim q r >>= fun v => listFromPrimitive fromPrim (qs ++ x :: suf) r >>=
        fun vs => pure (v :: vs)) = _
      simp [hfq, ih hqs]

/-- When every element converts, element-wise conversion returns exactly
the converted elements in order. -/
theorem listFromPrimitive_all_ok (α : Type)
    (fromPrim : Primitive → Resolve → Except ErrorKind α) (r : Resolve)
    (l : List Primitive) (vs : List α)
    (h : l.map (fun q => fromPrim q r) = vs.map Except.ok) :
    listFromPrimitive fromPrim l r = Except.ok vs := by
  induction l generalizing vs with
  | nil =>
    cases vs with
    | nil => rfl
    | cons v vs2 => simp at h
  | cons q qs ih =>
    cases vs with
    | nil => simp at h
    | cons v vs2 =>
      simp only [List.map_cons, List.cons.injEq] at h
      show (fromPrim q r >>= fun v2 => listFromPrimitive fromPrim qs r >>=
        fun rest => pure (v2 :: rest)) = _
      simp [h.1, ih vs2 h.2]

/-- Claim C2: array conversion is fail-fast: if the elements before
position i all convert and the element at position i fails with error e,
the whole conversion fails with exactly e, for every suffix after the
failing element (so no later element can influence the result and no
partial sequence is returned); and when every element converts, the
result is the list of converted values in order. -/
theorem vec_array_fail_fast (α : Type)
    (fromPrim : Primitive → Resolve → Except ErrorKind α) (r : Resolve) :
    (∀ (pre : List Primitive) (x : Primitive) (suf : List Primitive) (e : ErrorKind),
      (∀ q ∈ pre, resultIsOk (fromPrim q r) = true) →
      fromPrim x r = Except.error e →
      vecFromPrimitive fromPrim (Primitive.Array (pre ++ x :: suf)) r = Except.error e) ∧
    (∀ (l : List Primitive) (vs : List α),
      l.map (fun q => fromPrim q r) = vs.map Except.ok →
      vecFromPrimitive fromPrim (Primitive.Array l) r = Except.ok vs) := by
  constructor
  · intro pre x suf e hpre hx
    rw [vecFromPrimitive_array]
    exact listFromPrimitive_fail_fast α fromPrim r pre x suf e hpre hx
  · intro l vs h
    rw [vecFromPrimitive_array]
    exact listFromPrimitive_all_ok α fromPrim r l vs h

/-- Witness for C2 with the i32 element conversion: the array
`[1, true, 3]` fails with the type-mismatch error of the boolean at
position 1, and the all-integer array `[4, 5]` converts to `[4, 5]`. -/
theorem vec_array_fail_fast_witness :
    vecFromPrimitive i32FromPrimitive
      (Primitive.Array ([Primitive.Integer 1] ++ Primitive.Boolean true :: [Primitive.Integer 3]))
      NoResolve.resolve = Except.error ErrorKind.TypeMismatch ∧
    vecFromPrimitive i32FromPrimitive (Primitive.Array [Primitive.Integer 4, Primitive.Integer 5])
      NoResolve.resolve = Except.ok [(4 : Int), 5] := by
  constructor
  · exact (vec_array_fail_fast Int i32FromPrimitive NoResolve.resolve).1
      [Primitive.Integer 1] (Primitive.Boolean true) [Primitive.Integer 3]
      ErrorKind.TypeMismatch (by intro q hq; simp at hq; simp [hq, i32FromPrimitive,
        Primitive.as_integer, resultIsOk]) rfl
  · exact (vec_array_fail_fast Int i32FromPrimitive NoResolve.resolve).2
      [Primitive.Integer 4, Primitive.Integer 5] [4, 5] rfl

/-- Claim C10: the empty array converts to the empty sequence, every
array goes through the element-wise path, and the singleton coercion is
never applied to the array variant: even for the empty array the result
differs from what wrapping the array value itself would produce. -/
theorem vec_empty_array (α : Type)
    (fromPrim : Primitive → Resolve → Except ErrorKind α) (r : Resolve) :
    vecFromPrimitive fromPrim (Primitive.Array []) r = Except.ok [] ∧
    (∀ a, vecFromPrimitive fromPrim (Primitive.Array a) r = listFromPrimitive fromPrim a r) ∧
    vecFromPrimitive fromPrim (Primitive.Array []) r ≠
      (fromPrim (Primitive.Array []) r).map (fun v => [v]) := by
  refine ⟨vecFromPrimitive_array α fromPrim [] r, fun a => vecFromPrimitive_array α fromPrim a r, ?_⟩
  rw [vecFromPrimitive_array]
  cases fromPrim (Primitive.Array []) r <;> simp [listFromPrimitive]

/-- A digit below ten maps to the matching ASCII digit code. -/
theorem digitChar_toNat : ∀ d, d < 10 → (digitChar d).toNat = 48 + d := by decide

/-- A digit below ten maps to a decimal digit character. -/
theorem digitChar_isDigit : ∀ d, d < 10 → (digitChar d).isDigit = true := by decide

/-- Appending one digit multiplies the decimal reading by ten. -/
theorem decimalValue_append (cs : List Char) (d : Char) :
    decimalValue (cs ++ [d]) = 10 * decimalValue cs + (d.toNat - 48) := by
  simp [decimalValue, List.foldl_append]

/-- The decimal rendering reads back to the rendered number. -/
theorem decimalValue_natToDecimal (n : Nat) : decimalValue (natToDecimal n) = n := by
  induction n using natToDecimal.induct with
  | case1 n h =>
    rw [natToDecimal, dif_pos h]
    simp [decimalValue, digitChar_toNat n h]
  | case2 n h ih =>
    rw [natToDecimal, dif_neg h, decimalValue_append, ih,
      digitChar_toNat (n % 10) (Nat.mod_lt n (by omega))]
    omega

/-- Every character of the decimal rendering is a digit. -/
theorem natToDecimal_digits (n : Nat) : ∀ c ∈ natToDecimal n, c.isDigit = true := by
  induction n using natToDecimal.induct with
  | case1 n h =>
    rw [natToDecimal, dif_pos h]
    simpa using digitChar_isDigit n h
  | case2 n h ih =>
    rw [natToDecimal, dif_neg h]
    intro c hc
    rcases List.mem_append.mp hc with hl | hr
    · exact ih c hl
    · simp only [List.mem_singleton] at hr
      exact hr ▸ digitChar_isDigit (n % 10) (Nat.mod_lt n (by omega))

/-- Claim C7: reference serialization form: for every object and
generation number, `PlainRef.serialize` writes the decimal rendering of
the object number, a space, the decimal rendering of the generation
number, then a space and `R`; both renderings are decimal ASCII (all
digit characters, reading back to the number); and for every marker type
`Ref.serialize` writes exactly the bytes of its wrapped inner
reference. -/
theorem plainref_serialize_form (T : Type) (id : ObjNr) (gen : GenNr) :
    PlainRef.serialize ⟨id, gen⟩ =
      natToDecimal id ++ ' ' :: (natToDecimal gen ++ [' ', 'R']) ∧
    Ref.serialize (Ref.new T ⟨id, gen⟩) = PlainRef.serialize ⟨id, gen⟩ ∧
    decimalValue (natToDecimal id) = id ∧
    decimalValue (natToDecimal gen) = gen ∧
    (∀ c ∈ natToDecimal id, c.isDigit = true) ∧
    (∀ c ∈ natToDecimal gen, c.isDigit = true) :=
  ⟨rfl, rfl, decimalValue_natToDecimal id, decimalValue_natToDecimal gen,
    natToDecimal_digits id, natToDecimal_digits gen⟩

/-- Instantiation of C7 at the pair (12, 3): the serialized bytes are
the characters of `12 3 R`. -/
theorem plainref_serialize_form_witness :
    PlainRef.serialize ⟨12, 3⟩ =
      natToDecimal 12 ++ ' ' :: (natToDecimal 3 ++ [' ', 'R']) ∧
    natToDecimal 12 = ['1', '2'] ∧ natToDecimal 3 = ['3'] :=
  ⟨(plainref_serialize_form Unit 12 3).1, by
    rw [natToDecimal, dif_neg (by omega), natToDecimal, dif_pos (by omega)]
    rfl, by
    rw [natToDecimal, dif_pos (by omega)]
    rfl⟩

/-- The escaping described by the claim: an escaping backslash
immediately before each backslash and each parenthesis, every other
character unchanged. -/
def stringEscapeSpec : List Char → List Char
  | [] => []
  | c :: rest =>
    (if c = '\\' ∨ c = '(' ∨ c = ')' then ['\\', c] else [c]) ++ stringEscapeSpec rest

/-- Counterexample to C3 as stated: the one-character string holding the
code point 127 lies entirely within the 7-bit range, yet serialization
does not produce the escaped text (it aborts). -/
theorem string_serialize_seven_bit_cex :
    (∀ c ∈ [Char.ofNat 127], c.toNat < 128) ∧
    stringSerialize [Char.ofNat 127] ≠ some (stringEscapeSpec [Char.ofNat 127]) := by
  decide

/-- Claim C3 (amended): for every string whose characters are all at
most `~` (code point 126), serialization writes an escaping backslash
immediately before each backslash and each parenthesis and every other
character unchanged. -/
theorem string_serialize_escapes (s : List Char) (h : ∀ c ∈ s, c ≤ '~') :
    stringSerialize s = some (stringEscapeSpec s) := by
  induction s with
  | nil => rfl
  | cons c rest ih =>
    have hc : c ≤ '~' := h c (by simp)
    have hrest := ih (fun c2 h2 => h c2 (by simp [h2]))
    by_cases hesc : c = '\\' ∨ c = '(' ∨ c = ')'
    · simp [stringSerialize, stringEscapeSpec, hesc, hrest]
    · have : ¬ ('~' < c) := not_lt.mpr hc
      simp [stringSerialize, stringEscapeSpec, hesc, this, hrest]

/-- Witness for C3 on the text `a(b)\c` of the claim: the output is
`a\(b\)\\c`. -/
theorem string_serialize_escapes_witness :
    (∀ c ∈ ("a(b)\\c".data), c ≤ '~') ∧
    stringSerialize ("a(b)\\c".data) = some (stringEscapeSpec ("a(b)\\c".data)) ∧
    stringEscapeSpec ("a(b)\\c".data) = ("a\\(b\\)\\\\c".data) :=
  ⟨by decide, string_serialize_escapes ("a(b)\\c".data) (by decide), by decide⟩

/-- Counterexample to C4 as stated: the one-character string holding the
code point 127 contains no character outside the 7-bit range, yet
serialization aborts. -/
theorem string_serialize_abort_cex :
    stringSerialize [Char.ofNat 127] = none ∧
    (∀ c ∈ [Char.ofNat 127], c.toNat < 128) := by
  decide

/-- Claim C4 (amended): serialization aborts (the embedded panic,
`none`) exactly when the string contains a character above `~` (code
point 126); on every string without such a character it produces an
output, so its only failure mode is the underlying sink failing. -/
theorem string_serialize_abort_iff (s : List Char) :
    stringSerialize s = none ↔ ∃ c ∈ s, '~' < c := by
  induction s with
  | nil => simp [stringSerialize]
  | cons c rest ih =>
    by_cases hesc : c = '\\' ∨ c = '(' ∨ c = ')'
    · have : ¬ ('~' < c) := by
        rcases hesc with h | h | h <;> simp [h]
      simp [stringSerialize, hesc, Option.map_eq_none, ih, this]
    · by_cases habove : '~' < c
      · simp [stringSerialize, hesc, habove]
      · simp [stringSerialize, hesc, habove, Option.map_eq_none, ih]

/-- Instantiation of C4 on the one-character string `a`: no abort. -/
theorem string_serialize_abort_iff_witness :
    (stringSerialize ['a'] = none ↔ ∃ c ∈ ['a'], '~' < c) ∧
    stringSerialize ['a'] = some ['a'] :=
  ⟨string_serialize_abort_iff ['a'], by decide⟩

/-- Fail-fast map over an option-producing function, used to state the
per-pair formulations of the mapping serialization. -/
def optionMapList (f : α → Option β) : List α → Option (List β)
  | [] => some []
  | x :: xs => do
    let y ← f x
    let ys ← optionMapList f xs
    pure (y :: ys)

/-- The mapping serialization described verbatim by the claim: `<<`,
then each stored pair in insertion order as a slash, the unquoted key, a
space, the recursively serialized value and a space after the value,
then `>>`. -/
def dictSpecClaim (d : List (DictKey × Primitive)) : Option (List Char) :=
  (optionMapList (fun kv => (Primitive.serialize kv.2).map
      (fun sv => '/' :: kv.1.data ++ ' ' :: (sv ++ [' ']))) d).map
    (fun parts => '<' :: '<' :: (parts.flatten ++ ['>', '>']))

/-- The mapping serialization with the amended pair format: each stored
pair in insertion order as a slash, the key unquoted, a single space,
then the recursively serialized value, with no space after the value;
the whole bracketed by the markers. -/
def dictSpecAmended (d : List (DictKey × Primitive)) : Option (List Char) :=
  (optionMapList (fun kv => (Primitive.serialize kv.2).map
      (fun sv => '/' :: kv.1.data ++ ' ' :: sv)) d).map
    (fun parts => '<' :: '<' :: (parts.flatten ++ ['>', '>']))

/-- Counterexample to C5 as stated: on the one-entry mapping `a` to the
boolean true, the code writes no space after the serialized value, so
its output differs from the claimed form. -/
theorem dictionary_serialize_trailing_space_cex :
    dictionarySerialize [("a", Primitive.Boolean true)] = some (("<</a true>>".data)) ∧
    dictSpecClaim [("a", Primitive.Boolean true)] = some (("<</a true >>".data)) ∧
    ("<</a true>>".data) ≠ ("<</a true >>".data) := by
  refine ⟨?_, ?_, by decide⟩
  · simp [dictionarySerialize, serializeDictPairs, Primitive.serialize, boolSerialize]
  · simp [dictSpecClaim, optionMapList, Primitive.serialize, boolSerialize]

/-- The pair loop equals the mapped and flattened pair renderings. -/
theorem serializeDictPairs_eq (d : List (DictKey × Primitive)) :
    serializeDictPairs d = (optionMapList (fun kv => (Primitive.serialize kv.2).map
      (fun sv => '/' :: kv.1.data ++ ' ' :: sv)) d).map List.flatten := by
  induction d with
  | nil => simp [serializeDictPairs, optionMapList]
  | cons kv rest ih =>
    obtain ⟨k, v⟩ := kv
    rw [serializeDictPairs, ih, optionMapList]
    cases hv : Primitive.serialize v with
    | none => simp [hv]
    | some sv =>
      cases hr : optionMapList (fun kv => (Primitive.serialize kv.2).map
          (fun sv => '/' :: kv.1.data ++ ' ' :: sv)) rest with
      | none => simp [hv, hr]
      | some parts => simp [hv, hr]

/-- Claim C5 (amended): for every mapping, serialization writes `<<`,
then each stored pair in insertion order as a slash, the unquoted key, a
single space and the recursively serialized value (no space after the
value), then `>>`; the pair renderings appear in exactly the stored
order. -/
theorem dictionary_serialize_form (d : List (DictKey × Primitive)) :
    dictionarySerialize d = dictSpecAmended d := by
  rw [dictionarySerialize, dictSpecAmended, serializeDictPairs_eq]
  cases optionMapList (fun kv => (Primitive.serialize kv.2).map
      (fun sv => '/' :: kv.1.data ++ ' ' :: sv)) d with
  | none => rfl
  | some parts => rfl

/-- Instantiation of C5 on a mapping with keys k1, k2, k3 inserted in
that order: the output lists the keys in the same order. -/
theorem dictionary_serialize_form_witness :
    dictionarySerialize [("k1", Primitive.Null), ("k2", Primitive.Null),
      ("k3", Primitive.Null)] =
      dictSpecAmended [("k1", Primitive.Null), ("k2", Primitive.Null),
        ("k3", Primitive.Null)] ∧
    dictSpecAmended [("k1", Primitive.Null), ("k2", Primitive.Null),
      ("k3", Primitive.Null)] = some (("<</k1 null/k2 null/k3 null>>".data)) := by
  refine ⟨dictionary_serialize_form _, ?_⟩
  simp [dictSpecAmended, optionMapList, Primitive.serialize]

/-- Instantiation of C10: the empty array converts to the empty
sequence under the i32 element conversion. -/
theorem vec_empty_array_witness :
    vecFromPrimitive i32FromPrimitive (Primitive.Array []) NoResolve.resolve =
      Except.ok ([] : List Int) :=
  (vec_empty_array Int i32FromPrimitive NoResolve.resolve).1
